import Mathlib

/-
Verification of the shaku dependency-injection engine.

The dynamic registration surface (`ContainerBuilder`, `register_lambda`) is
embedded directly from `src/shaku/src/container/container_builder.rs`.  The
resolution engine (`ContainerBuildContext`), the finished store (`Container`)
and the provider retrieval path are not present in the sources (only their
callers and declarations are), so they are modelled from the specification's
contract for `resolve`/`build` (spec sections 4.2-4.4) and marked as such.

Interface identities (`std::any::TypeId`) are modelled as natural numbers,
build procedures as implementation tags (each concrete implementation gets a
distinct tag), and heap instances as records carrying a unique allocation id,
so that "the identically same underlying instance" is expressible as equality
of allocation ids.
-/

set_option linter.unusedVariables false

namespace Shaku

/-- Interface identity: stand-in for `std::any::TypeId`. -/
abbrev TypeId := Nat

/-- A registration record as held by `RegisteredType` in the source:
the human-readable implementation name, a tag standing for the boxed build
procedure (identifying the concrete implementation), and the declared
dependency list. -/
structure RegisteredType where
  component : String
  implTag : Nat
  dependencies : List TypeId
deriving DecidableEq

/-- Association-list model of `HashMap<TypeId, V>` lookup: the first binding
for the key wins. -/
def alookup {α : Type} : List (TypeId × α) → TypeId → Option α
  | [], _ => none
  | (k', v) :: rest, k => if k' = k then some v else alookup rest k

/-- Drop every binding for a key (auxiliary for modelling `HashMap::insert`,
which replaces the old binding). -/
def mapErase {α : Type} (m : List (TypeId × α)) (k : TypeId) : List (TypeId × α) :=
  m.filter (fun p => p.1 != k)

/-- Model of `HashMap::insert`: the new binding replaces any old one. -/
def mapInsert {α : Type} (m : List (TypeId × α)) (k : TypeId) (v : α) : List (TypeId × α) :=
  (k, v) :: mapErase m k

/-- `ContainerBuilder` from the source: just the registration map. -/
structure ContainerBuilder where
  registration_map : List (TypeId × RegisteredType)
deriving DecidableEq

/-- `ContainerBuilder::new` / `Default::default`. -/
def ContainerBuilder.new : ContainerBuilder := ⟨[]⟩

/-- Result of a `register_lambda` call: the updated builder, the handle the
caller gets back (the source looks the key back up after inserting and
unwraps; here the lookup stays an `Option`), and whether the overwrite
warning was emitted. -/
structure RegisterResult where
  builder : ContainerBuilder
  handle : Option RegisteredType
  diagnostic : Bool
deriving DecidableEq

/-- `ContainerBuilder::register_lambda` from the source: build the record,
insert it into the map (capturing the replaced old value, whose presence
triggers the warning diagnostic), then look the key back up for the returned
mutable handle. -/
def ContainerBuilder.register_lambda (b : ContainerBuilder) (interfaceTypeId : TypeId)
    (componentName : String) (implTag : Nat) (dependencies : List TypeId) :
    RegisterResult :=
  let registeredType : RegisteredType :=
    { component := componentName, implTag := implTag, dependencies := dependencies }
  let oldValue := alookup b.registration_map interfaceTypeId
  let newMap := mapInsert b.registration_map interfaceTypeId registeredType
  { builder := { registration_map := newMap }
    handle := alookup newMap interfaceTypeId
    diagnostic := oldValue.isSome }

/-- A constructed service instance: the tag of the implementation that built
it, a unique allocation id (standing for the heap address behind the shared
pointer), and the allocation ids of the dependency instances it was built
from. -/
structure Instance where
  implTag : Nat
  allocId : Nat
  depRefs : List Nat
deriving DecidableEq

/-- In-progress state of a build pass: the memoized store and the allocation
counter. -/
structure BuildState where
  store : List (TypeId × Instance)
  nextAlloc : Nat
deriving DecidableEq

/-- Build errors, from the spec's error catalogue (section 7).  `fuelExhausted`
is an artifact of the bounded-recursion embedding; it is proved unreachable
for the fuel `build` supplies. -/
inductive DIError where
  | unregisteredInterface (identity : TypeId)
  | circularDependency (cycle : List TypeId)
  | fuelExhausted
deriving DecidableEq

/-- Resolve a list of dependencies left to right with a given single-identity
resolver, collecting the allocation ids of the resolved instances. -/
def resolveDeps (f : BuildState → TypeId → Except DIError (Nat × BuildState)) :
    BuildState → List TypeId → Except DIError (List Nat × BuildState)
  | st, [] => Except.ok ([], st)
  | st, d :: ds =>
    match f st d with
    | Except.error e => Except.error e
    | Except.ok (a, st1) =>
      match resolveDeps f st1 ds with
      | Except.error e => Except.error e
      | Except.ok (as, st2) => Except.ok (a :: as, st2)

/-- One step of the resolution algorithm, parameterized by the resolver used
for recursive calls.  Follows the spec's contract for `resolve(identity)`:
memoized instances are returned immediately; an identity found on the
in-progress stack is a circular dependency, reported with the portion of the
stack that forms the cycle; a missing registration is an unregistered
interface; otherwise the declared dependencies are resolved in declaration
order and a fresh instance is allocated and memoized. -/
def resolveF (reg : List (TypeId × RegisteredType))
    (go : List TypeId → BuildState → TypeId → Except DIError (Nat × BuildState))
    (stack : List TypeId) (st : BuildState) (identity : TypeId) :
    Except DIError (Nat × BuildState) :=
  match alookup st.store identity with
  | some inst => Except.ok (inst.allocId, st)
  | none =>
    if identity ∈ stack then
      Except.error (DIError.circularDependency
        (identity :: stack.takeWhile (fun x => x != identity)))
    else
      match alookup reg identity with
      | none => Except.error (DIError.unregisteredInterface identity)
      | some r =>
        match resolveDeps (go (identity :: stack)) st r.dependencies with
        | Except.error e => Except.error e
        | Except.ok (refs, st1) =>
          Except.ok (st1.nextAlloc,
            { store := (identity,
                { implTag := r.implTag, allocId := st1.nextAlloc,
                  depRefs := refs }) :: st1.store,
              nextAlloc := st1.nextAlloc + 1 })

/-- Modelled from the spec: `ContainerBuildContext`'s recursive `resolve`
(the Build Context source file is absent; spec section 4.2 gives its
contract).  `fuel` bounds the recursion depth; `build` supplies enough fuel,
which is proved sufficient below. -/
def resolve (reg : List (TypeId × RegisteredType)) :
    Nat → List TypeId → BuildState → TypeId → Except DIError (Nat × BuildState)
  | 0 => fun _ _ _ => Except.error DIError.fuelExhausted
  | fuel + 1 => resolveF reg (resolve reg fuel)

/-- Resolve every given root identity in order, threading the build state. -/
def buildRoots (reg : List (TypeId × RegisteredType)) (fuel : Nat) :
    BuildState → List TypeId → Except DIError BuildState
  | st, [] => Except.ok st
  | st, k :: ks =>
    match resolve reg fuel [] st k with
    | Except.error e => Except.error e
    | Except.ok (_, st') => buildRoots reg fuel st' ks

/-- The finished instance store (`Container`). -/
structure Container where
  instances : List (TypeId × Instance)
deriving DecidableEq

/-- Modelled from the spec: `ContainerBuildContext::build`, reached through
`ContainerBuilder::build` (the Build Context source file is absent; spec
sections 4.2 and 6 give its contract).  Every registration in the registry is
resolved — not just those reachable from some root — and the finished store
is returned only when every resolution succeeded. -/
def ContainerBuilder.build (b : ContainerBuilder) : Except DIError Container :=
  match buildRoots b.registration_map (b.registration_map.length + 1)
      { store := [], nextAlloc := 0 } (b.registration_map.map Prod.fst) with
  | Except.error e => Except.error e
  | Except.ok st => Except.ok { instances := st.store }

/-- Modelled from the spec: `Container::resolve` retrieval (the Container
source file is absent; spec section 4.3 gives its contract) — a lookup that
hands out a new shared reference to the stored instance and never constructs
anything. -/
def Container.resolve (c : Container) (identity : TypeId) : Option Instance :=
  alookup c.instances identity

/-- A provider binding of the static composition layer: an implementation tag
and the component dependencies its build procedure reads. -/
structure ProviderBinding where
  implTag : Nat
  dependencies : List TypeId
deriving DecidableEq

/-- A composition unit (module) at runtime: the components it holds (one
shared instance per component binding, as in the `module!` expansion where
each field stores an `Arc`), plus the allocation counter used when providers
construct fresh instances. -/
structure ModuleState where
  store : List (TypeId × Instance)
  nextAlloc : Nat
deriving DecidableEq

/-- `HasComponent::get_ref` from the `module!` expansion in
`src/shaku/src/module.rs`: return a shared reference to the stored component
instance; nothing is constructed and the module is not changed. -/
def ModuleState.get_ref (m : ModuleState) (identity : TypeId) : Option Instance :=
  alookup m.store identity

/-- Modelled from the spec: provider retrieval (the `Provider` trait source is
absent; spec section 4.4 gives its contract) — re-run the provider's build
procedure against the module's already-resolved components, allocating a
fresh instance each call and leaving the stored components untouched. -/
def ModuleState.provide (m : ModuleState) (p : ProviderBinding) :
    Instance × ModuleState :=
  ({ implTag := p.implTag, allocId := m.nextAlloc,
     depRefs := p.dependencies.filterMap (fun d => (alookup m.store d).map Instance.allocId) },
   { store := m.store, nextAlloc := m.nextAlloc + 1 })

/-- `a` depends on `b`: the registration found for `a` declares `b`. -/
def dependsOnB (reg : List (TypeId × RegisteredType)) (a b : TypeId) : Bool :=
  match alookup reg a with
  | some r => r.dependencies.contains b
  | none => false

/-- Every declared dependency of every registration is itself registered. -/
def closedB (reg : List (TypeId × RegisteredType)) : Bool :=
  reg.all fun p => p.2.dependencies.all fun d => (alookup reg d).isSome

/-- Each element of the list depends on its predecessor (with `x` preceding
the list). -/
def adjacentOkB (reg : List (TypeId × RegisteredType)) : TypeId → List TypeId → Bool
  | _, [] => true
  | x, y :: ys => dependsOnB reg y x && adjacentOkB reg y ys

/-- The list is a dependency cycle of the registry's graph: each element
depends on the one before it, and the first element depends on the last. -/
def isCycleB (reg : List (TypeId × RegisteredType)) : List TypeId → Bool
  | [] => false
  | x :: xs => adjacentOkB reg x xs && dependsOnB reg x (List.getLastD xs x)

/-- Acyclicity of the dependency graph, stated as the existence of a
topological rank: every edge strictly decreases the rank toward the
dependency. -/
def Acyclic (reg : List (TypeId × RegisteredType)) : Prop :=
  ∃ rank : TypeId → Nat, ∀ a b, dependsOnB reg a b = true → rank b < rank a

/-! ### Basic lookup lemmas -/

theorem alookup_eq_none {α : Type} :
    ∀ (m : List (TypeId × α)) (k : TypeId),
      alookup m k = none ↔ k ∉ m.map Prod.fst := by
  intro m
  induction m with
  | nil => intro k; simp [alookup]
  | cons p rest ih =>
    intro k
    obtain ⟨k', v⟩ := p
    by_cases h : k' = k
    · subst h; simp [alookup]
    · simp [alookup, h, ih k, Ne.symm h]

theorem alookup_of_mem_keys {α : Type} (m : List (TypeId × α)) (k : TypeId)
    (h : k ∈ m.map Prod.fst) : ∃ v, alookup m k = some v := by
  cases hv : alookup m k with
  | none => exact absurd h ((alookup_eq_none m k).mp hv)
  | some v => exact ⟨v, rfl⟩

theorem mem_keys_of_alookup {α : Type} (m : List (TypeId × α)) (k : TypeId) (v : α)
    (h : alookup m k = some v) : k ∈ m.map Prod.fst := by
  by_contra hk
  rw [← alookup_eq_none m k] at hk
  rw [h] at hk
  exact Option.noConfusion hk

theorem alookup_mem {α : Type} :
    ∀ (m : List (TypeId × α)) (k : TypeId) (v : α),
      alookup m k = some v → (k, v) ∈ m := by
  intro m
  induction m with
  | nil => intro k v h; simp [alookup] at h
  | cons p rest ih =>
    intro k v h
    obtain ⟨k', v'⟩ := p
    by_cases hk : k' = k
    · subst hk
      simp [alookup] at h
      subst h
      exact List.mem_cons_self _ _
    · rw [alookup, if_neg hk] at h
      exact List.mem_cons_of_mem _ (ih k v h)

theorem alookup_mapErase {α : Type} :
    ∀ (m : List (TypeId × α)) (k j : TypeId), j ≠ k →
      alookup (mapErase m k) j = alookup m j := by
  intro m
  induction m with
  | nil => intro k j _; rfl
  | cons p rest ih =>
    intro k j hj
    obtain ⟨k', v⟩ := p
    by_cases hk : k' = k
    · subst hk
      have h1 : mapErase ((k', v) :: rest) k' = mapErase rest k' := by
        simp [mapErase, List.filter_cons]
      have hne : k' ≠ j := fun h => hj h.symm
      rw [h1, ih k' j hj, alookup, if_neg hne]
    · have h1 : mapErase ((k', v) :: rest) k = (k', v) :: mapErase rest k := by
        simp [mapErase, List.filter_cons, hk]
      rw [h1]
      by_cases hkj : k' = j
      · subst hkj; simp [alookup]
      · rw [alookup, if_neg hkj, alookup, if_neg hkj, ih k j hj]

theorem alookup_mapInsert_self {α : Type} (m : List (TypeId × α)) (k : TypeId) (v : α) :
    alookup (mapInsert m k v) k = some v := by
  simp [mapInsert, alookup]

theorem alookup_mapInsert_ne {α : Type} (m : List (TypeId × α)) (k j : TypeId) (v : α)
    (hj : j ≠ k) : alookup (mapInsert m k v) j = alookup m j := by
  rw [mapInsert, alookup, if_neg (Ne.symm hj)]
  exact alookup_mapErase m k j hj

theorem dependsOnB_elim {reg : List (TypeId × RegisteredType)} {a b : TypeId}
    (h : dependsOnB reg a b = true) :
    ∃ r, alookup reg a = some r ∧ b ∈ r.dependencies := by
  unfold dependsOnB at h
  cases hr : alookup reg a with
  | none => rw [hr] at h; exact absurd h (by simp)
  | some r =>
    rw [hr] at h
    exact ⟨r, rfl, by simpa using h⟩

theorem dependsOnB_intro {reg : List (TypeId × RegisteredType)} {a b : TypeId}
    {r : RegisteredType} (hr : alookup reg a = some r) (hb : b ∈ r.dependencies) :
    dependsOnB reg a b = true := by
  unfold dependsOnB
  rw [hr]
  simpa using hb

theorem closedB_spec {reg : List (TypeId × RegisteredType)}
    (h : closedB reg = true) :
    ∀ k r, alookup reg k = some r → ∀ d ∈ r.dependencies,
      (alookup reg d).isSome = true := by
  intro k r hk d hd
  have hmem := alookup_mem reg k r hk
  rw [closedB, List.all_eq_true] at h
  have := h (k, r) hmem
  rw [List.all_eq_true] at this
  exact this d hd

/-! ### The build-state invariant and resolution postconditions -/

/-- Invariant of the in-progress build state: store keys are distinct; every
stored instance stems from the registration found for its key, carries an
allocation id below the allocation counter, and each of its declared
dependencies is already stored with a strictly smaller allocation id (so
dependencies are fully built before their dependents). -/
def StoreWF (reg : List (TypeId × RegisteredType)) (st : BuildState) : Prop :=
  (st.store.map Prod.fst).Nodup ∧
  ∀ k inst, alookup st.store k = some inst →
    inst.allocId < st.nextAlloc ∧
    ∃ r, alookup reg k = some r ∧ inst.implTag = r.implTag ∧
      ∀ d, d ∈ r.dependencies →
        ∃ instD, alookup st.store d = some instD ∧ instD.allocId < inst.allocId

/-- What a successful `resolve` call guarantees: the invariant is preserved,
the store only grows, identities still in progress are not snuck into the
store, and the requested identity ends up stored with the returned
allocation id. -/
def ResolvePost (reg : List (TypeId × RegisteredType)) (stack : List TypeId)
    (st : BuildState) (identity : TypeId) (a : Nat) (st' : BuildState) : Prop :=
  StoreWF reg st' ∧
  (∀ k i, alookup st.store k = some i → alookup st'.store k = some i) ∧
  st.nextAlloc ≤ st'.nextAlloc ∧
  (∀ k, k ∈ stack → alookup st.store k = none → alookup st'.store k = none) ∧
  ∃ inst, alookup st'.store identity = some inst ∧ inst.allocId = a

/-- What a successful `resolveDeps` run guarantees. -/
def DepsPost (reg : List (TypeId × RegisteredType)) (stack : List TypeId)
    (st : BuildState) (ds : List TypeId) (st' : BuildState) : Prop :=
  StoreWF reg st' ∧
  (∀ k i, alookup st.store k = some i → alookup st'.store k = some i) ∧
  st.nextAlloc ≤ st'.nextAlloc ∧
  (∀ k, k ∈ stack → alookup st.store k = none → alookup st'.store k = none) ∧
  ∀ d, d ∈ ds → ∃ inst, alookup st'.store d = some inst

/-! ### Lemmas about `resolveDeps` -/

theorem resolveDeps_error {f : BuildState → TypeId → Except DIError (Nat × BuildState)}
    {e : DIError} :
    ∀ (ds : List TypeId) (st : BuildState), resolveDeps f st ds = Except.error e →
      ∃ st1 d, d ∈ ds ∧ f st1 d = Except.error e := by
  intro ds
  induction ds with
  | nil => intro st h; simp [resolveDeps] at h
  | cons d ds ih =>
    intro st h
    rw [resolveDeps] at h
    split at h
    next e1 heq =>
      simp only [Except.error.injEq] at h
      subst h
      exact ⟨st, d, List.mem_cons_self _ _, heq⟩
    next a st1 heq =>
      split at h
      next e2 heq2 =>
        simp only [Except.error.injEq] at h
        subst h
        obtain ⟨st2, d', hd', hf⟩ := ih st1 heq2
        exact ⟨st2, d', List.mem_cons_of_mem _ hd', hf⟩
      next as2 st2 heq2 => exact absurd h (by simp)

theorem resolveDeps_ok_post {reg : List (TypeId × RegisteredType)}
    {f : BuildState → TypeId → Except DIError (Nat × BuildState)}
    {stack : List TypeId}
    (Hf : ∀ st d a st', StoreWF reg st → f st d = Except.ok (a, st') →
      ResolvePost reg stack st d a st') :
    ∀ (ds : List TypeId) (st : BuildState) (as : List Nat) (st' : BuildState),
      StoreWF reg st → resolveDeps f st ds = Except.ok (as, st') →
      DepsPost reg stack st ds st' := by
  intro ds
  induction ds with
  | nil =>
    intro st as st' hwf h
    simp only [resolveDeps, Except.ok.injEq, Prod.mk.injEq] at h
    obtain ⟨_, h2⟩ := h
    subst h2
    exact ⟨hwf, fun k i hk => hk, le_refl _, fun k _ hk => hk, by simp⟩
  | cons d ds ih =>
    intro st as st' hwf h
    rw [resolveDeps] at h
    split at h
    next e1 heq => exact absurd h (by simp)
    next a st1 heq =>
      split at h
      next e2 heq2 => exact absurd h (by simp)
      next as2 st2 heq2 =>
        simp only [Except.ok.injEq, Prod.mk.injEq] at h
        obtain ⟨_, h4⟩ := h
        subst h4
        obtain ⟨hwf1, hext1, hal1, habs1, inst1, hinst1, _⟩ := Hf st d a st1 hwf heq
        obtain ⟨hwf2, hext2, hal2, habs2, hds2⟩ := ih st1 as2 st2 hwf1 heq2
        refine ⟨hwf2, fun k i hk => hext2 k i (hext1 k i hk), le_trans hal1 hal2,
          fun k hk hn => habs2 k hk (habs1 k hk hn), ?_⟩
        intro d' hd'
        rcases List.mem_cons.mp hd' with hd' | hd'
        · subst hd'
          exact ⟨inst1, hext2 _ _ hinst1⟩
        · exact hds2 d' hd'

/-! ### The main preservation lemma for `resolve` -/

theorem resolve_ok_post (reg : List (TypeId × RegisteredType)) :
    ∀ (fuel : Nat) (stack : List TypeId) (st : BuildState) (identity : TypeId)
      (a : Nat) (st' : BuildState),
      StoreWF reg st → resolve reg fuel stack st identity = Except.ok (a, st') →
      ResolvePost reg stack st identity a st' := by
  intro fuel
  induction fuel with
  | zero =>
    intro stack st identity a st' hwf h
    exact absurd h (by simp [resolve])
  | succ fuel ih =>
    intro stack st identity a st' hwf h
    rw [show resolve reg (fuel + 1) = resolveF reg (resolve reg fuel) from rfl] at h
    rw [resolveF] at h
    split at h
    next inst hmem =>
      simp only [Except.ok.injEq, Prod.mk.injEq] at h
      obtain ⟨h1, h2⟩ := h
      subst h2
      exact ⟨hwf, fun k i hk => hk, le_refl _, fun k _ hk => hk, inst, hmem, h1⟩
    next hmem =>
      split at h
      next hstk => exact absurd h (by simp)
      next hstk =>
        split at h
        next hreg => exact absurd h (by simp)
        next r hreg =>
          split at h
          next e hdeps => exact absurd h (by simp)
          next refs st1 hdeps =>
            simp only [Except.ok.injEq, Prod.mk.injEq] at h
            obtain ⟨ha, hst'⟩ := h
            subst hst'
            have hpost := resolveDeps_ok_post
              (fun st d a st' hw hr => ih (identity :: stack) st d a st' hw hr)
              r.dependencies st refs st1 hwf hdeps
            obtain ⟨hwf1, hext1, hal1, habs1, hds1⟩ := hpost
            have hid1 : alookup st1.store identity = none :=
              habs1 identity (List.mem_cons_self _ _) hmem
            have hid1' : identity ∉ st1.store.map Prod.fst :=
              (alookup_eq_none _ _).mp hid1
            refine ⟨⟨?_, ?_⟩, ?_, ?_, ?_, ?_⟩
            · exact List.nodup_cons.mpr ⟨hid1', hwf1.1⟩
            · intro k inst ho
              simp only [alookup] at ho
              by_cases hk : identity = k
              · rw [if_pos hk] at ho
                subst hk
                simp only [Option.some.injEq] at ho
                subst ho
                refine ⟨Nat.lt_succ_self _, r, hreg, rfl, ?_⟩
                intro d hd
                obtain ⟨instD, hinstD⟩ := hds1 d hd
                have hdne : identity ≠ d := by
                  intro hde
                  rw [← hde, hid1] at hinstD
                  exact Option.noConfusion hinstD
                refine ⟨instD, ?_, (hwf1.2 d instD hinstD).1⟩
                simp only [alookup, if_neg hdne]
                exact hinstD
              · rw [if_neg hk] at ho
                obtain ⟨hlt, r', hr', htag, hdeps'⟩ := hwf1.2 k inst ho
                refine ⟨Nat.lt_succ_of_lt hlt, r', hr', htag, ?_⟩
                intro d hd
                obtain ⟨instD, hinstD, hltD⟩ := hdeps' d hd
                have hdne : identity ≠ d := by
                  intro hde
                  rw [← hde, hid1] at hinstD
                  exact Option.noConfusion hinstD
                refine ⟨instD, ?_, hltD⟩
                simp only [alookup, if_neg hdne]
                exact hinstD
            · intro k i hk
              have hk1 := hext1 k i hk
              have hkne : identity ≠ k := by
                intro hke
                rw [← hke, hid1] at hk1
                exact Option.noConfusion hk1
              simp only [alookup, if_neg hkne]
              exact hk1
            · exact le_trans hal1 (Nat.le_succ _)
            · intro k hkstk hkn
              have hk1 := habs1 k (List.mem_cons_of_mem _ hkstk) hkn
              have hkne : identity ≠ k := fun hke => hstk (hke ▸ hkstk)
              simp only [alookup, if_neg hkne]
              exact hk1
            · refine ⟨⟨r.implTag, st1.nextAlloc, refs⟩, ?_, ha⟩
              simp [alookup]

/-! ### Error analysis: fuel, unregistered interfaces, circular dependencies -/

theorem nodup_subset_length {l l' : List Nat} (h1 : l.Nodup)
    (h2 : ∀ x ∈ l, x ∈ l') : l.length ≤ l'.length := by
  have e1 : l.toFinset.card = l.length := List.toFinset_card_of_nodup h1
  have hsub : l.toFinset ⊆ l'.toFinset := by
    intro x hx
    exact List.mem_toFinset.mpr (h2 x (List.mem_toFinset.mp hx))
  calc l.length = l.toFinset.card := e1.symm
    _ ≤ l'.toFinset.card := Finset.card_le_card hsub
    _ ≤ l'.length := List.toFinset_card_le l'

/-- With the fuel `build` supplies, the recursion bound is never hit: the
in-progress stack holds distinct registered identities, so its depth cannot
exceed the number of registrations. -/
theorem resolve_no_fuel (reg : List (TypeId × RegisteredType)) :
    ∀ (fuel : Nat) (stack : List TypeId) (st : BuildState) (identity : TypeId),
      stack.Nodup → (∀ x ∈ stack, x ∈ reg.map Prod.fst) →
      reg.length + 1 ≤ fuel + stack.length →
      resolve reg fuel stack st identity ≠ Except.error DIError.fuelExhausted := by
  intro fuel
  induction fuel with
  | zero =>
    intro stack st identity hnd hsub hb h
    have hlen := nodup_subset_length hnd hsub
    rw [List.length_map] at hlen
    omega
  | succ fuel ih =>
    intro stack st identity hnd hsub hb h
    rw [show resolve reg (fuel + 1) = resolveF reg (resolve reg fuel) from rfl] at h
    rw [resolveF] at h
    split at h
    next inst hmem => exact absurd h (by simp)
    next hmem =>
      split at h
      next hstk => simp at h
      next hstk =>
        split at h
        next hreg => simp at h
        next r hreg =>
          split at h
          next e hdeps =>
            simp only [Except.error.injEq] at h
            subst h
            obtain ⟨st1, d, hd, hf⟩ := resolveDeps_error r.dependencies st hdeps
            refine ih (identity :: stack) st1 d ?_ ?_ ?_ hf
            · exact List.nodup_cons.mpr ⟨hstk, hnd⟩
            · intro x hx
              rcases List.mem_cons.mp hx with hx | hx
              · subst hx; exact mem_keys_of_alookup reg x r hreg
              · exact hsub x hx
            · simp only [List.length_cons]
              omega
          next refs st1 hdeps => exact absurd h (by simp)

/-- An unregistered-interface error always names an identity with no
registration, and that identity is either the original request or a declared
dependency of some registration. -/
theorem resolve_unreg (reg : List (TypeId × RegisteredType)) :
    ∀ (fuel : Nat) (stack : List TypeId) (st : BuildState) (identity d : TypeId),
      resolve reg fuel stack st identity =
        Except.error (DIError.unregisteredInterface d) →
      alookup reg d = none ∧
        (d = identity ∨ ∃ a r, alookup reg a = some r ∧ d ∈ r.dependencies) := by
  intro fuel
  induction fuel with
  | zero => intro stack st identity d h; simp [resolve] at h
  | succ fuel ih =>
    intro stack st identity d h
    rw [show resolve reg (fuel + 1) = resolveF reg (resolve reg fuel) from rfl] at h
    rw [resolveF] at h
    split at h
    next inst hmem => exact absurd h (by simp)
    next hmem =>
      split at h
      next hstk => simp at h
      next hstk =>
        split at h
        next hreg =>
          simp only [Except.error.injEq, DIError.unregisteredInterface.injEq] at h
          subst h
          exact ⟨hreg, Or.inl rfl⟩
        next r hreg =>
          split at h
          next e hdeps =>
            simp only [Except.error.injEq] at h
            subst h
            obtain ⟨st1, d1, hd1, hf⟩ := resolveDeps_error r.dependencies st hdeps
            obtain ⟨hnone, hc⟩ := ih (identity :: stack) st1 d1 d hf
            refine ⟨hnone, Or.inr ?_⟩
            rcases hc with hc | hc
            · refine ⟨identity, r, hreg, ?_⟩
              rw [hc]
              exact hd1
            · exact hc
          next refs st1 hdeps => exact absurd h (by simp)

theorem mem_takeWhile_decomp :
    ∀ (l : List TypeId) (t : TypeId), t ∈ l →
      ∃ l₂, l = l.takeWhile (fun x => x != t) ++ t :: l₂ := by
  intro l
  induction l with
  | nil => intro t ht; cases ht
  | cons x xs ih =>
    intro t ht
    by_cases hx : x = t
    · subst hx
      refine ⟨xs, ?_⟩
      have hf : (x != x) = false := by simp
      rw [List.takeWhile_cons, hf]
      simp
    · have htx : t ∈ xs := by
        rcases List.mem_cons.mp ht with h | h
        · exact absurd h.symm hx
        · exact h
      obtain ⟨l₂, hl₂⟩ := ih t htx
      refine ⟨l₂, ?_⟩
      have htr : (x != t) = true := by simp [hx]
      rw [List.takeWhile_cons, htr]
      simp only [if_true, List.cons_append]
      exact congrArg (x :: ·) hl₂

theorem adjacentOk_split (reg : List (TypeId × RegisteredType)) :
    ∀ (L : List TypeId) (a t : TypeId) (l₂ : List TypeId),
      adjacentOkB reg a (L ++ t :: l₂) = true →
      adjacentOkB reg a L = true ∧ dependsOnB reg t (List.getLastD L a) = true := by
  intro L
  induction L with
  | nil =>
    intro a t l₂ h
    rw [List.nil_append, adjacentOkB, Bool.and_eq_true] at h
    exact ⟨rfl, h.1⟩
  | cons x L ih =>
    intro a t l₂ h
    rw [List.cons_append, adjacentOkB, Bool.and_eq_true] at h
    obtain ⟨h1, h2⟩ := h
    obtain ⟨h3, h4⟩ := ih x t l₂ h2
    refine ⟨?_, ?_⟩
    · rw [adjacentOkB, Bool.and_eq_true]
      exact ⟨h1, h3⟩
    · rw [List.getLastD_cons]
      exact h4

/-- A circular-dependency error always reports a genuine cycle of the
dependency graph, provided the in-progress stack is itself a dependency
chain rooted at the current request (which is trivially true at top level
where the stack is empty). -/
theorem resolve_circ (reg : List (TypeId × RegisteredType)) :
    ∀ (fuel : Nat) (stack : List TypeId) (st : BuildState) (identity : TypeId)
      (c : List TypeId),
      adjacentOkB reg identity stack = true →
      resolve reg fuel stack st identity =
        Except.error (DIError.circularDependency c) →
      isCycleB reg c = true := by
  intro fuel
  induction fuel with
  | zero => intro stack st identity c hadj h; simp [resolve] at h
  | succ fuel ih =>
    intro stack st identity c hadj h
    rw [show resolve reg (fuel + 1) = resolveF reg (resolve reg fuel) from rfl] at h
    rw [resolveF] at h
    split at h
    next inst hmem => exact absurd h (by simp)
    next hmem =>
      split at h
      next hstk =>
        simp only [Except.error.injEq, DIError.circularDependency.injEq] at h
        subst h
        obtain ⟨l₂, hl₂⟩ := mem_takeWhile_decomp stack identity hstk
        rw [hl₂] at hadj
        obtain ⟨h1, h2⟩ := adjacentOk_split reg _ identity identity l₂ hadj
        rw [isCycleB, Bool.and_eq_true]
        exact ⟨h1, h2⟩
      next hstk =>
        split at h
        next hreg => simp at h
        next r hreg =>
          split at h
          next e hdeps =>
            simp only [Except.error.injEq] at h
            subst h
            obtain ⟨st1, d1, hd1, hf⟩ := resolveDeps_error r.dependencies st hdeps
            refine ih (identity :: stack) st1 d1 c ?_ hf
            rw [adjacentOkB, Bool.and_eq_true]
            exact ⟨dependsOnB_intro hreg hd1, hadj⟩
          next refs st1 hdeps => exact absurd h (by simp)

/-- Along a dependency chain, any topological rank is monotone up to the last
element. -/
theorem rank_le_getLastD (reg : List (TypeId × RegisteredType))
    (rank : TypeId → Nat)
    (hr : ∀ a b, dependsOnB reg a b = true → rank b < rank a) :
    ∀ (xs : List TypeId) (x : TypeId), adjacentOkB reg x xs = true →
      rank x ≤ rank (List.getLastD xs x) := by
  intro xs
  induction xs with
  | nil => intro x _; exact le_refl _
  | cons y ys ih =>
    intro x h
    rw [adjacentOkB, Bool.and_eq_true] at h
    obtain ⟨h1, h2⟩ := h
    rw [List.getLastD_cons]
    exact le_trans (le_of_lt (hr y x h1)) (ih y h2)

/-- A registry whose graph admits a cycle admits no topological rank. -/
theorem cycle_not_acyclic (reg : List (TypeId × RegisteredType))
    (c : List TypeId) (hc : isCycleB reg c = true) : ¬ Acyclic reg := by
  rintro ⟨rank, hr⟩
  cases c with
  | nil => simp [isCycleB] at hc
  | cons x xs =>
    rw [isCycleB, Bool.and_eq_true] at hc
    obtain ⟨h1, h2⟩ := hc
    have hle : rank x ≤ rank (List.getLastD xs x) :=
      rank_le_getLastD reg rank hr xs x h1
    have hlt : rank (List.getLastD xs x) < rank x := hr x _ h2
    omega

/-! ### Lemmas about `buildRoots` and `build` -/

theorem buildRoots_error (reg : List (TypeId × RegisteredType)) (fuel : Nat) :
    ∀ (ks : List TypeId) (st : BuildState) (e : DIError),
      buildRoots reg fuel st ks = Except.error e →
      ∃ st1 k, k ∈ ks ∧ resolve reg fuel [] st1 k = Except.error e := by
  intro ks
  induction ks with
  | nil => intro st e h; simp [buildRoots] at h
  | cons k ks ih =>
    intro st e h
    rw [buildRoots] at h
    split at h
    next e1 heq =>
      simp only [Except.error.injEq] at h
      subst h
      exact ⟨st, k, List.mem_cons_self _ _, heq⟩
    next a st1 heq =>
      obtain ⟨st2, k', hk', hr⟩ := ih st1 e h
      exact ⟨st2, k', List.mem_cons_of_mem _ hk', hr⟩

theorem buildRoots_ok_post (reg : List (TypeId × RegisteredType)) (fuel : Nat) :
    ∀ (ks : List TypeId) (st st' : BuildState),
      StoreWF reg st → buildRoots reg fuel st ks = Except.ok st' →
      StoreWF reg st' ∧
        (∀ k i, alookup st.store k = some i → alookup st'.store k = some i) ∧
        ∀ k, k ∈ ks → ∃ inst, alookup st'.store k = some inst := by
  intro ks
  induction ks with
  | nil =>
    intro st st' hwf h
    simp only [buildRoots, Except.ok.injEq] at h
    subst h
    exact ⟨hwf, fun k i hk => hk, by simp⟩
  | cons k ks ih =>
    intro st st' hwf h
    rw [buildRoots] at h
    split at h
    next e heq => exact absurd h (by simp)
    next a st1 heq =>
      obtain ⟨hwf1, hext1, _, _, inst1, hinst1, _⟩ :=
        resolve_ok_post reg fuel [] st k a st1 hwf heq
      obtain ⟨hwf2, hext2, hks2⟩ := ih st1 st' hwf1 h
      refine ⟨hwf2, fun k' i hk' => hext2 k' i (hext1 k' i hk'), ?_⟩
      intro k' hk'
      rcases List.mem_cons.mp hk' with hk' | hk'
      · subst hk'
        exact ⟨inst1, hext2 _ _ hinst1⟩
      · exact hks2 k' hk'

theorem storeWF_empty (reg : List (TypeId × RegisteredType)) :
    StoreWF reg { store := [], nextAlloc := 0 } := by
  constructor
  · simp
  · intro k inst h
    simp [alookup] at h

/-- A successful build yields a well-formed store covering every registered
identity. -/
theorem build_ok_store (b : ContainerBuilder) (c : Container)
    (h : b.build = Except.ok c) :
    ∃ n, StoreWF b.registration_map { store := c.instances, nextAlloc := n } ∧
      ∀ k, k ∈ b.registration_map.map Prod.fst →
        ∃ inst, alookup c.instances k = some inst := by
  rw [ContainerBuilder.build] at h
  split at h
  next e heq => exact absurd h (by simp)
  next st heq =>
    simp only [Except.ok.injEq] at h
    subst h
    obtain ⟨hwf, _, hks⟩ :=
      buildRoots_ok_post b.registration_map _ _ _ st (storeWF_empty _) heq
    exact ⟨st.nextAlloc, hwf, hks⟩

/-- A successful build is complete: distinct keys, every stored instance
stems from its key's registration, and an identity is stored exactly when it
is registered. -/
theorem build_ok_post (b : ContainerBuilder) (c : Container)
    (h : b.build = Except.ok c) :
    (c.instances.map Prod.fst).Nodup ∧
    (∀ k inst, alookup c.instances k = some inst →
      ∃ r, alookup b.registration_map k = some r ∧ inst.implTag = r.implTag) ∧
    (∀ k, (alookup b.registration_map k).isSome ↔ (alookup c.instances k).isSome) := by
  obtain ⟨n, hwf, hks⟩ := build_ok_store b c h
  refine ⟨hwf.1, ?_, ?_⟩
  · intro k inst hk
    obtain ⟨_, r, hr, htag, _⟩ := hwf.2 k inst hk
    exact ⟨r, hr, htag⟩
  · intro k
    constructor
    · intro hk
      rw [Option.isSome_iff_exists] at hk
      obtain ⟨r, hr⟩ := hk
      obtain ⟨inst, hinst⟩ := hks k (mem_keys_of_alookup _ _ _ hr)
      rw [hinst]
      rfl
    · intro hk
      rw [Option.isSome_iff_exists] at hk
      obtain ⟨inst, hinst⟩ := hk
      obtain ⟨_, r, hr, _, _⟩ := hwf.2 k inst hinst
      rw [hr]
      rfl

theorem build_error_elim (b : ContainerBuilder) (e : DIError)
    (h : b.build = Except.error e) :
    ∃ st1 k, k ∈ b.registration_map.map Prod.fst ∧
      resolve b.registration_map (b.registration_map.length + 1) [] st1 k =
        Except.error e := by
  rw [ContainerBuilder.build] at h
  split at h
  next e1 heq =>
    simp only [Except.error.injEq] at h
    subst h
    exact buildRoots_error _ _ _ _ _ heq
  next st heq => exact absurd h (by simp)

/-- `build` never reports fuel exhaustion: the fuel it supplies is enough. -/
theorem build_no_fuel (b : ContainerBuilder) :
    b.build ≠ Except.error DIError.fuelExhausted := by
  intro h
  obtain ⟨st1, k, hk, hres⟩ := build_error_elim b _ h
  refine resolve_no_fuel b.registration_map _ [] st1 k List.nodup_nil
    (by intro x hx; cases hx) ?_ hres
  simp

/-- An unregistered-interface failure of `build` names an identity that has no
registration and is a declared dependency of some registration. -/
theorem build_unreg_elim (b : ContainerBuilder) (d : TypeId)
    (h : b.build = Except.error (DIError.unregisteredInterface d)) :
    alookup b.registration_map d = none ∧
      ∃ a r, alookup b.registration_map a = some r ∧ d ∈ r.dependencies := by
  obtain ⟨st1, k, hk, hres⟩ := build_error_elim b _ h
  obtain ⟨hnone, hc⟩ := resolve_unreg _ _ _ _ _ _ hres
  refine ⟨hnone, ?_⟩
  rcases hc with hc | hc
  · subst hc
    obtain ⟨v, hv⟩ := alookup_of_mem_keys _ _ hk
    rw [hv] at hnone
    exact Option.noConfusion hnone
  · exact hc

/-- A circular-dependency failure of `build` reports a genuine cycle. -/
theorem build_circ_elim (b : ContainerBuilder) (c : List TypeId)
    (h : b.build = Except.error (DIError.circularDependency c)) :
    isCycleB b.registration_map c = true := by
  obtain ⟨st1, k, hk, hres⟩ := build_error_elim b _ h
  exact resolve_circ _ _ _ _ _ _ (by rw [adjacentOkB]) hres

/-- If `build` succeeds, the allocation order of the store is a topological
rank, so the dependency graph is acyclic. -/
theorem build_ok_acyclic (b : ContainerBuilder) (c : Container)
    (h : b.build = Except.ok c) : Acyclic b.registration_map := by
  obtain ⟨n, hwf, hks⟩ := build_ok_store b c h
  refine ⟨fun k => ((alookup c.instances k).map Instance.allocId).getD 0, ?_⟩
  intro a b' hdep
  obtain ⟨r, hra, hb⟩ := dependsOnB_elim hdep
  obtain ⟨insta, hinsta⟩ := hks a (mem_keys_of_alookup _ _ _ hra)
  obtain ⟨_, r', hr', _, hdeps⟩ := hwf.2 a insta hinsta
  rw [hra] at hr'
  simp only [Option.some.injEq] at hr'
  subst hr'
  obtain ⟨instb, hinstb, hlt⟩ := hdeps b' hb
  have hinstb' : alookup c.instances b' = some instb := hinstb
  simp only [hinsta, hinstb', Option.map_some', Option.getD_some]
  exact hlt

/-- If `build` fails on a registry whose declared dependencies are all
registered, the failure can only be a circular dependency. -/
theorem build_closed_error_circ (b : ContainerBuilder) (e : DIError)
    (hclosed : closedB b.registration_map = true)
    (h : b.build = Except.error e) :
    ∃ cy, e = DIError.circularDependency cy ∧
      isCycleB b.registration_map cy = true := by
  cases e with
  | unregisteredInterface d =>
    obtain ⟨hnone, a, r, hr, hd⟩ := build_unreg_elim b d h
    have := closedB_spec hclosed a r hr d hd
    rw [hnone] at this
    exact absurd this (by simp)
  | circularDependency cy => exact ⟨cy, rfl, build_circ_elim b cy h⟩
  | fuelExhausted => exact absurd h (build_no_fuel b)

/-! ### Claim C1 -/

/-- C1: For every registry in which every declared dependency of every
registration is itself registered and the dependency graph contains no cycle,
`build()` returns success, and the resulting instance store contains exactly
one instance for each registered interface identity — no identity missing
(an identity is stored exactly when it is registered) and no identity
duplicated (the store's keys are distinct). -/
theorem C1_build_succeeds_complete (b : ContainerBuilder)
    (hclosed : closedB b.registration_map = true)
    (hacyc : Acyclic b.registration_map) :
    ∃ c : Container, b.build = Except.ok c ∧
      (c.instances.map Prod.fst).Nodup ∧
      ∀ k, (alookup b.registration_map k).isSome ↔
        (alookup c.instances k).isSome := by
  cases hb : b.build with
  | error e =>
    obtain ⟨cy, _, hcy⟩ := build_closed_error_circ b e hclosed hb
    exact absurd hacyc (cycle_not_acyclic _ cy hcy)
  | ok c =>
    obtain ⟨h1, _, h3⟩ := build_ok_post b c hb
    exact ⟨c, rfl, h1, h3⟩

/-- Registry used to witness C1: component A (identity 0, no dependencies)
and component B (identity 1) depending on A, the spec's worked example. -/
def builderC1 : ContainerBuilder :=
  ((ContainerBuilder.new.register_lambda 0 "FooImpl" 10 []).builder.register_lambda
    1 "BarImpl" 11 [0]).builder

theorem acyclicC1 : Acyclic builderC1.registration_map := by
  refine ⟨fun k => k, ?_⟩
  intro a b h
  obtain ⟨r, hr, hb⟩ := dependsOnB_elim h
  have hmem : a ∈ ([1, 0] : List TypeId) := mem_keys_of_alookup _ _ _ hr
  rcases (by simpa using hmem : a = 1 ∨ a = 0) with ha | ha
  · subst ha
    have hr' : some (⟨"BarImpl", 11, [0]⟩ : RegisteredType) = some r := hr
    obtain rfl := (Option.some.inj hr').symm
    have hb' : b = 0 := by simpa using hb
    subst hb'
    exact Nat.zero_lt_one
  · subst ha
    have hr' : some (⟨"FooImpl", 10, []⟩ : RegisteredType) = some r := hr
    obtain rfl := (Option.some.inj hr').symm
    simp at hb

/-- Witness for C1 at the concrete two-component registry. -/
theorem C1_witness :
    (closedB builderC1.registration_map = true ∧
      Acyclic builderC1.registration_map) ∧
    ∃ c : Container, builderC1.build = Except.ok c ∧
      (c.instances.map Prod.fst).Nodup ∧
      ∀ k, (alookup builderC1.registration_map k).isSome ↔
        (alookup c.instances k).isSome :=
  ⟨⟨by decide, acyclicC1⟩,
    C1_build_succeeds_complete builderC1 (by decide) acyclicC1⟩

/-! ### Claim C2 -/

/-- Registry refuting C2 as stated: identity 1 is a self-cycle, but identity
0 — resolved first — depends on the unregistered identity 9, so `build` fails
with `unregisteredInterface 9` instead of a circular-dependency error. -/
def builderC2x : ContainerBuilder :=
  ((ContainerBuilder.new.register_lambda 1 "SelfLoop" 21 [1]).builder.register_lambda
    0 "NeedsMissing" 20 [9]).builder

/-- C2 counterexample: the dependency graph of `builderC2x` contains a cycle
(`[1]` is a self-cycle), yet `build()` does not fail with a
CircularDependency error — it reports the unregistered identity 9 instead.
So a cycle alone does not guarantee a CircularDependency failure. -/
theorem C2_counterexample :
    isCycleB builderC2x.registration_map [1] = true ∧
    builderC2x.build = Except.error (DIError.unregisteredInterface 9) ∧
    ¬ ∃ cy, builderC2x.build = Except.error (DIError.circularDependency cy) := by
  refine ⟨by decide, rfl, ?_⟩
  rintro ⟨cy, hcy⟩
  rw [show builderC2x.build = Except.error (DIError.unregisteredInterface 9)
    from rfl] at hcy
  simp at hcy

/-- C2 (amended): for every registry in which every declared dependency is
registered and whose dependency graph contains a cycle, `build()` fails with
a CircularDependency error, and the identities the error names form a cycle
of the dependency graph. -/
theorem C2_cycle_build_fails (b : ContainerBuilder)
    (hclosed : closedB b.registration_map = true)
    (hcyc : ∃ cy, isCycleB b.registration_map cy = true) :
    ∃ cy', b.build = Except.error (DIError.circularDependency cy') ∧
      isCycleB b.registration_map cy' = true := by
  cases hb : b.build with
  | ok c =>
    obtain ⟨cy, hcy⟩ := hcyc
    exact absurd (build_ok_acyclic b c hb) (cycle_not_acyclic _ cy hcy)
  | error e =>
    obtain ⟨cy', he, hcy'⟩ := build_closed_error_circ b e hclosed hb
    subst he
    exact ⟨cy', rfl, hcy'⟩

/-- Registry used to witness the amended C2: a single self-cycle. -/
def builderC2w : ContainerBuilder :=
  (ContainerBuilder.new.register_lambda 0 "Loop" 30 [0]).builder

/-- Witness for the amended C2 at the concrete self-cycle registry. -/
theorem C2_witness :
    (closedB builderC2w.registration_map = true ∧
      isCycleB builderC2w.registration_map [0] = true) ∧
    ∃ cy', builderC2w.build = Except.error (DIError.circularDependency cy') ∧
      isCycleB builderC2w.registration_map cy' = true :=
  ⟨⟨by decide, by decide⟩,
    C2_cycle_build_fails builderC2w (by decide) ⟨[0], by decide⟩⟩

/-! ### Claim C3 -/

/-- Registry refuting C3 as stated: identity 1 depends on the unregistered
identity 9, but identity 0 — resolved first — is a self-cycle, so `build`
fails with a circular-dependency error rather than UnregisteredInterface. -/
def builderC3x : ContainerBuilder :=
  ((ContainerBuilder.new.register_lambda 1 "NeedsMissing" 31 [9]).builder.register_lambda
    0 "Loop" 32 [0]).builder

/-- C3 counterexample: `builderC3x` contains a registration (identity 1)
declaring a dependency on identity 9, which has no registration, yet
`build()` fails with a CircularDependency error rather than an
UnregisteredInterface error naming 9. -/
theorem C3_counterexample :
    alookup builderC3x.registration_map 1 =
      some ⟨"NeedsMissing", 31, [9]⟩ ∧
    alookup builderC3x.registration_map 9 = none ∧
    builderC3x.build = Except.error (DIError.circularDependency [0]) ∧
    ¬ ∃ d, builderC3x.build = Except.error (DIError.unregisteredInterface d) := by
  refine ⟨rfl, rfl, rfl, ?_⟩
  rintro ⟨d, hd⟩
  rw [show builderC3x.build = Except.error (DIError.circularDependency [0])
    from rfl] at hd
  simp at hd

/-- C3 (amended): for every registry whose dependency graph is acyclic and
which contains a registration declaring a dependency on an unregistered
identity, `build()` fails with an UnregisteredInterface error naming a
missing identity — an unregistered identity declared as a dependency of some
registration. -/
theorem C3_missing_dep_build_fails (b : ContainerBuilder)
    (hacyc : Acyclic b.registration_map)
    (hmiss : ∃ k r d, alookup b.registration_map k = some r ∧
      d ∈ r.dependencies ∧ alookup b.registration_map d = none) :
    ∃ d', b.build = Except.error (DIError.unregisteredInterface d') ∧
      alookup b.registration_map d' = none ∧
      ∃ k' r', alookup b.registration_map k' = some r' ∧
        d' ∈ r'.dependencies := by
  cases hb : b.build with
  | ok c =>
    obtain ⟨k, r, d, hk, hd, hnone⟩ := hmiss
    obtain ⟨n, hwf, hks⟩ := build_ok_store b c hb
    obtain ⟨instk, hinstk⟩ := hks k (mem_keys_of_alookup _ _ _ hk)
    obtain ⟨_, r', hr', _, hdeps⟩ := hwf.2 k instk hinstk
    rw [hk] at hr'
    simp only [Option.some.injEq] at hr'
    subst hr'
    obtain ⟨instd, hinstd, _⟩ := hdeps d hd
    obtain ⟨_, rd, hrd, _, _⟩ := hwf.2 d instd hinstd
    rw [hnone] at hrd
    exact Option.noConfusion hrd
  | error e =>
    cases e with
    | unregisteredInterface d' =>
      obtain ⟨hnone, hdep⟩ := build_unreg_elim b d' hb
      exact ⟨d', rfl, hnone, hdep⟩
    | circularDependency cy =>
      exact absurd hacyc (cycle_not_acyclic _ cy (build_circ_elim b cy hb))
    | fuelExhausted => exact absurd hb (build_no_fuel b)

/-- Registry used to witness the amended C3: a single registration whose only
dependency, identity 5, is unregistered. -/
def builderC3w : ContainerBuilder :=
  (ContainerBuilder.new.register_lambda 0 "NeedsFive" 40 [5]).builder

theorem acyclicC3w : Acyclic builderC3w.registration_map := by
  refine ⟨fun k => if k = 5 then 0 else 1, ?_⟩
  intro a b h
  obtain ⟨r, hr, hb⟩ := dependsOnB_elim h
  have hmem : a ∈ ([0] : List TypeId) := mem_keys_of_alookup _ _ _ hr
  have ha : a = 0 := by simpa using hmem
  subst ha
  have hr' : some (⟨"NeedsFive", 40, [5]⟩ : RegisteredType) = some r := hr
  obtain rfl := (Option.some.inj hr').symm
  have hb' : b = 5 := by simpa using hb
  subst hb'
  decide

/-- Witness for the amended C3 at the concrete missing-dependency registry. -/
theorem C3_witness :
    (Acyclic builderC3w.registration_map ∧
      alookup builderC3w.registration_map 0 = some ⟨"NeedsFive", 40, [5]⟩ ∧
      alookup builderC3w.registration_map 5 = none) ∧
    ∃ d', builderC3w.build = Except.error (DIError.unregisteredInterface d') ∧
      alookup builderC3w.registration_map d' = none ∧
      ∃ k' r', alookup builderC3w.registration_map k' = some r' ∧
        d' ∈ r'.dependencies :=
  ⟨⟨acyclicC3w, rfl, rfl⟩,
    C3_missing_dep_build_fails builderC3w acyclicC3w
      ⟨0, ⟨"NeedsFive", 40, [5]⟩, 5, rfl, by decide, rfl⟩⟩

/-! ### Claim C4 -/

/-- C4: singleton semantics within one store.  Two retrievals of the same
interface identity from a store produced by a successful build return
references to the identically same underlying instance (the instances are
equal, in particular their allocation ids — the model of heap addresses —
coincide).  Moreover, during a build pass, requesting an identity whose
instance already sits in the in-progress store returns that instance's
allocation id immediately, with the state unchanged — the memoization that
makes each interface built at most once per pass, no matter how many
dependents request it. -/
theorem C4_singleton_semantics (b : ContainerBuilder) (c : Container)
    (identity : TypeId) (i1 i2 : Instance)
    (reg : List (TypeId × RegisteredType)) (fuel : Nat) (stack : List TypeId)
    (st : BuildState) (inst : Instance)
    (hb : b.build = Except.ok c)
    (h1 : c.resolve identity = some i1) (h2 : c.resolve identity = some i2)
    (hmemo : alookup st.store identity = some inst) :
    (i1 = i2 ∧ i1.allocId = i2.allocId) ∧
    resolve reg (fuel + 1) stack st identity = Except.ok (inst.allocId, st) := by
  have hi : i1 = i2 := by
    rw [h1] at h2
    exact Option.some.inj h2
  refine ⟨⟨hi, by rw [hi]⟩, ?_⟩
  rw [show resolve reg (fuel + 1) = resolveF reg (resolve reg fuel) from rfl,
    resolveF, hmemo]

/-- Builder, container, instance and build state used to witness C4. -/
def builderC4 : ContainerBuilder :=
  (ContainerBuilder.new.register_lambda 0 "Single" 50 []).builder

def instanceC4 : Instance := ⟨50, 0, []⟩

def stateC4 : BuildState := ⟨[(0, instanceC4)], 1⟩

/-- Witness for C4 at a concrete one-component registry. -/
theorem C4_witness :
    (builderC4.build = Except.ok ⟨[(0, instanceC4)]⟩ ∧
      Container.resolve ⟨[(0, instanceC4)]⟩ 0 = some instanceC4 ∧
      alookup stateC4.store 0 = some instanceC4) ∧
    ((instanceC4 = instanceC4 ∧ instanceC4.allocId = instanceC4.allocId) ∧
      resolve builderC4.registration_map 1 [] stateC4 0 =
        Except.ok (instanceC4.allocId, stateC4)) :=
  ⟨⟨rfl, rfl, rfl⟩,
    C4_singleton_semantics builderC4 ⟨[(0, instanceC4)]⟩ 0 instanceC4 instanceC4
      builderC4.registration_map 0 [] stateC4 instanceC4 rfl rfl rfl rfl⟩

/-! ### Claim C5 -/

/-- C5: last-write-wins registration.  Registering a second component under
an interface identity that already has a registration emits the overwrite
diagnostic, produces no error (the registration call is total and the new
record is stored), and a subsequent successful `build()` resolves that
identity to the most recently registered implementation. -/
theorem C5_last_write_wins (b : ContainerBuilder) (identity : TypeId)
    (n1 n2 : String) (t1 t2 : Nat) (d1 d2 : List TypeId) :
    ((b.register_lambda identity n1 t1 d1).builder.register_lambda
      identity n2 t2 d2).diagnostic = true ∧
    alookup ((b.register_lambda identity n1 t1 d1).builder.register_lambda
      identity n2 t2 d2).builder.registration_map identity = some ⟨n2, t2, d2⟩ ∧
    ∀ c inst,
      ((b.register_lambda identity n1 t1 d1).builder.register_lambda
        identity n2 t2 d2).builder.build = Except.ok c →
      alookup c.instances identity = some inst → inst.implTag = t2 := by
  have hmap : alookup ((b.register_lambda identity n1 t1 d1).builder.register_lambda
      identity n2 t2 d2).builder.registration_map identity =
      some ⟨n2, t2, d2⟩ := by
    simp only [ContainerBuilder.register_lambda]
    exact alookup_mapInsert_self _ _ _
  refine ⟨?_, hmap, ?_⟩
  · simp only [ContainerBuilder.register_lambda]
    rw [alookup_mapInsert_self]
    rfl
  · intro c inst hc hinst
    obtain ⟨_, himpl, _⟩ := build_ok_post _ c hc
    obtain ⟨r, hr, htag⟩ := himpl identity inst hinst
    rw [hmap] at hr
    simp only [Option.some.injEq] at hr
    subst hr
    exact htag

/-- Registration sequence and container used to witness C5. -/
def registerC5 : RegisterResult :=
  (ContainerBuilder.new.register_lambda 0 "Impl1" 1 []).builder.register_lambda
    0 "Impl2" 2 []

def containerC5 : Container := ⟨[(0, ⟨2, 0, []⟩)]⟩

/-- Witness for C5: after registering Impl1 then Impl2 under identity 0, the
diagnostic fired, the map holds Impl2's record, and the built store's
instance for identity 0 carries Impl2's tag. -/
theorem C5_witness :
    registerC5.diagnostic = true ∧
    alookup registerC5.builder.registration_map 0 = some ⟨"Impl2", 2, []⟩ ∧
    registerC5.builder.build = Except.ok containerC5 ∧
    (⟨2, 0, []⟩ : Instance).implTag = 2 := by
  have h := C5_last_write_wins ContainerBuilder.new 0 "Impl1" "Impl2" 1 2 [] []
  exact ⟨h.1, h.2.1, rfl, h.2.2 containerC5 ⟨2, 0, []⟩ rfl rfl⟩

/-! ### Claim C6 -/

/-- C6: in the static composition layer, a Provider-style binding produces a
fresh, distinct instance on every retrieval (two successive `provide` calls
return instances with different allocation ids, each freshly produced by the
provider's build procedure), while a Component-style binding returns the same
stored instance on every retrieval (`get_ref` reads the stored component and
is unchanged by provider activity, which leaves the component store
untouched). -/
theorem C6_provider_fresh_component_stable (m : ModuleState)
    (p : ProviderBinding) (identity : TypeId) :
    ModuleState.get_ref (m.provide p).2 identity = m.get_ref identity ∧
    (m.provide p).2.store = m.store ∧
    (m.provide p).1.allocId ≠ ((m.provide p).2.provide p).1.allocId ∧
    (m.provide p).1.implTag = p.implTag ∧
    ((m.provide p).2.provide p).1.implTag = p.implTag := by
  refine ⟨rfl, rfl, ?_, rfl, rfl⟩
  simp [ModuleState.provide]

/-! ### Claim C7 -/

/-- C7: all-or-nothing builds.  Whenever `build()` returns a store at all (it
returns `Except.error` otherwise, so no store escapes a failed pass), that
store is fully populated: its keys are distinct and an identity is stored
exactly when it is registered — never a partial store holding only some of
the successfully built instances. -/
theorem C7_all_or_nothing (b : ContainerBuilder) (c : Container)
    (h : b.build = Except.ok c) :
    (c.instances.map Prod.fst).Nodup ∧
    ∀ k, (alookup b.registration_map k).isSome ↔
      (alookup c.instances k).isSome := by
  obtain ⟨h1, _, h3⟩ := build_ok_post b c h
  exact ⟨h1, h3⟩

/-- Builder and container used to witness C7. -/
def builderC7 : ContainerBuilder :=
  (ContainerBuilder.new.register_lambda 0 "Solo" 70 []).builder

def containerC7 : Container := ⟨[(0, ⟨70, 0, []⟩)]⟩

/-- Witness for C7 at a concrete one-component registry. -/
theorem C7_witness :
    builderC7.build = Except.ok containerC7 ∧
    (containerC7.instances.map Prod.fst).Nodup ∧
    ((alookup builderC7.registration_map 0).isSome ↔
      (alookup containerC7.instances 0).isSome) := by
  have h := C7_all_or_nothing builderC7 containerC7 rfl
  exact ⟨rfl, h.1, h.2 0⟩

/-! ### Claim C8 -/

/-- C8: no dependency validation at registration time.  `register_lambda` is
total — for every builder state and every declared dependency list, including
lists naming identities with no registration anywhere in the map, the call
succeeds and records the registration verbatim under its interface identity.
Dependency existence is only checked during `build()`. -/
theorem C8_register_no_validation (b : ContainerBuilder) (identity : TypeId)
    (componentName : String) (implTag : Nat) (dependencies : List TypeId) :
    alookup (b.register_lambda identity componentName implTag
      dependencies).builder.registration_map identity =
      some ⟨componentName, implTag, dependencies⟩ := by
  simp only [ContainerBuilder.register_lambda]
  exact alookup_mapInsert_self _ _ _

/-! ### Claim C9 -/

/-- C9: registration is frame-preserving.  Registering a component under
interface identity `identity` leaves the registration bound to every other
identity `j ≠ identity` unchanged: the lookup of `j` after the call returns
exactly what it returned before. -/
theorem C9_register_frame (b : ContainerBuilder) (identity j : TypeId)
    (componentName : String) (implTag : Nat) (dependencies : List TypeId)
    (hne : j ≠ identity) :
    alookup (b.register_lambda identity componentName implTag
      dependencies).builder.registration_map j =
      alookup b.registration_map j := by
  simp only [ContainerBuilder.register_lambda]
  exact alookup_mapInsert_ne _ _ _ _ hne

/-- Builder used to witness C9. -/
def builderC9 : ContainerBuilder :=
  (ContainerBuilder.new.register_lambda 1 "Keep" 91 []).builder

/-- Witness for C9: registering identity 0 leaves identity 1's registration
untouched. -/
theorem C9_witness :
    (1 : TypeId) ≠ 0 ∧
    alookup (builderC9.register_lambda 0 "New" 90 []).builder.registration_map 1 =
      alookup builderC9.registration_map 1 :=
  ⟨by decide, C9_register_frame builderC9 0 1 "New" 90 [] (by decide)⟩

/-! ### Claim C10 -/

/-- C10: the post-insert lookup `register_lambda` performs to produce its
returned mutable handle always succeeds — the `unwrap` in the source can
never panic — and the handle refers to exactly the registration just
inserted. -/
theorem C10_handle_lookup_safe (b : ContainerBuilder) (identity : TypeId)
    (componentName : String) (implTag : Nat) (dependencies : List TypeId) :
    (b.register_lambda identity componentName implTag dependencies).handle =
      some ⟨componentName, implTag, dependencies⟩ := by
  simp only [ContainerBuilder.register_lambda]
  exact alookup_mapInsert_self _ _ _

end Shaku
